import Mathlib

/-
Shallow embedding of the `stabilizer` crate: a wall-clock-time-based
debouncer (`src/timed.rs`), its value-presence abstraction
(`src/value.rs`), and the input-wrapping adapter (`src/wrapper.rs`).

Modelling choices:
* The monotonic clock is externalised: `M::now()` becomes an explicit
  `now : Nat` argument to each operation.  All `now()` reads inside one
  `update` call are taken at the same instant (the operations are
  documented as synchronous and atomic).  Instants and durations are
  natural numbers; `Instant + Duration` is `Nat` addition and the order
  on instants is the order on `Nat`.
* The sealed `Value` trait with its two implementations
  (`InitializedValue<T>` — "Known", and `UninitializedValue<T>` —
  "Unknown-capable") becomes a `ValueKind` record bundling the trait
  items used by the debouncer: `try_get`, `From<T> for V`,
  `Deref<Target = V::V>`, `Default for V::V`, and `From<T> for V::V`;
  the two Rust impls become two concrete `ValueKind` values.
* `&mut self` methods return the updated state next to their result;
  `&self` methods are plain functions of the state.
-/

namespace Stabilizer

/-- The `Value` trait of `src/value.rs`, as a record of the operations the
debouncer uses.  `Carrier` is the implementing type `V`, `View` is the
associated type `V::V` (the `Deref` target). -/
structure ValueKind (T : Type) where
  Carrier : Type
  View : Type
  try_get : Carrier → Option T
  fromT : T → Carrier
  deref : Carrier → View
  view_default : View
  view_fromT : T → View

/-- The `InitializedValue<T>` implementation (the "Known" variant):
`V = T`, `V::V = T`, `try_get` always succeeds.  `dflt` stands for
`<T as Default>::default()`, required by the `V::V: Default` bound on the
update/read impl block (it is never reachable for this variant). -/
@[reducible] def knownKind (T : Type) (dflt : T) : ValueKind T where
  Carrier := T
  View := T
  try_get := fun v => some v
  fromT := fun v => v
  deref := fun v => v
  view_default := dflt
  view_fromT := fun v => v

/-- The `UninitializedValue<T>` implementation (the "Unknown-capable"
variant): `V = Option T`, `V::V = Option T`, `try_get` is the identity,
`Default::default()` is `none`, `From<T>` is `some`. -/
@[reducible] def unknownKind (T : Type) : ValueKind T where
  Carrier := Option T
  View := Option T
  try_get := fun v => v
  fromT := fun v => some v
  deref := fun v => v
  view_default := none
  view_fromT := fun v => some v

/-- The `TimedDebouncer` struct of `src/timed.rs`. -/
structure TimedDebouncer (T : Type) (K : ValueKind T) where
  last_stable : K.Carrier
  last_value : K.Carrier
  last_change_time : Nat
  debounce_time : Nat

/-- The `State` enum of `src/timed.rs`: the outcome of one update. -/
inductive State (T View : Type) where
  | Stable : (value : T) → State T View
  | Unstable : (stable : View) → (most_recent : View) → State T View
  | Transitioned : (stable : T) → (previous_stable : View) → State T View
deriving DecidableEq

/-- `TimedDebouncer::new` (Known variant): both `last_stable` and
`last_value` are seeded from `initial_value`, `last_change_time = now()`. -/
def newKnown (T : Type) (dflt initial_value : T) (debounce_time now : Nat) :
    TimedDebouncer T (knownKind T dflt) where
  last_stable := (knownKind T dflt).fromT initial_value
  last_value := (knownKind T dflt).fromT initial_value
  last_change_time := now
  debounce_time := debounce_time

/-- `TimedDebouncer::new_unknown`: both value fields start at
`Default::default()` (no value yet), `last_change_time = now()`. -/
def new_unknown (T : Type) (debounce_time now : Nat) :
    TimedDebouncer T (unknownKind T) where
  last_stable := none
  last_value := none
  last_change_time := now
  debounce_time := debounce_time

variable {T : Type} {K : ValueKind T}

/-- Lines 133-141 of `src/timed.rs`: the value of `last_change_time`
after the comparison of `new_value` with the recorded `last_value` — set
to `now()` on a raw change or a first-ever value, untouched otherwise. -/
def next_change_time [DecidableEq T] (d : TimedDebouncer T K) (now : Nat)
    (new_value : T) : Nat :=
  match K.try_get d.last_value with
  | some last_value => if last_value ≠ new_value then now else d.last_change_time
  | none => now

/-- The tail of `TimedDebouncer::update` after the return-to-stable
short-circuit (lines 133-159 of `src/timed.rs`): maybe refresh
`last_change_time`, record `last_value`, then decide promotion by
`now >= last_change_time + debounce_time`. -/
def updateChanged [DecidableEq T] (d : TimedDebouncer T K) (now : Nat)
    (new_value : T) : TimedDebouncer T K × State T K.View :=
  let lct := next_change_time d now new_value
  let d1 : TimedDebouncer T K :=
    { d with last_change_time := lct, last_value := K.fromT new_value }
  if now ≥ lct + d.debounce_time then
    ({ d1 with last_stable := K.fromT new_value },
      State.Transitioned new_value (K.deref d.last_stable))
  else
    (d1, State.Unstable (K.deref d.last_stable) (K.view_fromT new_value))

/-- `TimedDebouncer::update`: first the return-to-stable short-circuit
(lines 126-132), else the change/promotion logic. -/
def update [DecidableEq T] (d : TimedDebouncer T K) (now : Nat)
    (new_value : T) : TimedDebouncer T K × State T K.View :=
  match K.try_get d.last_stable with
  | some last_stable =>
      if last_stable = new_value then
        ({ d with last_value := K.fromT new_value }, State.Stable last_stable)
      else updateChanged d now new_value
  | none => updateChanged d now new_value

/-- `TimedDebouncer::read`: re-run `update` with the last recorded raw
value; with no recorded raw value, return `Unstable` with both fields at
`Default::default()` and leave the state untouched. -/
def read [DecidableEq T] (d : TimedDebouncer T K) (now : Nat) :
    TimedDebouncer T K × State T K.View :=
  match K.try_get d.last_value with
  | some last_value => update d now last_value
  | none => (d, State.Unstable K.view_default K.view_default)

/-- `TimedDebouncer::read_stable`: returns `*self.last_stable`; `&self`
in Rust, hence a plain function of the state here. -/
def read_stable (d : TimedDebouncer T K) : K.View :=
  K.deref d.last_stable

/-- Runs a sequence of `update` calls, each given as (time, value), and
collects the returned outcomes. -/
def run_updates [DecidableEq T] (d : TimedDebouncer T K) :
    List (Nat × T) → TimedDebouncer T K × List (State T K.View)
  | [] => (d, [])
  | (t, v) :: rest =>
      let u := update d t v
      let r := run_updates u.1 rest
      (r.1, u.2 :: r.2)

/-- One operation on a debouncer: a mutating `update` call at a given
time with a given value, or a `read_stable` peek (`&self`, no state
returned). -/
inductive Op (T : Type) where
  | upd : Nat → T → Op T
  | peek : Op T

/-- Runs a sequence of operations; `peek` invokes `read_stable` on the
current state (collecting the value it returns) and, matching `&self` in
Rust, passes the state on unchanged. -/
def run_ops [DecidableEq T] (d : TimedDebouncer T K) :
    List (Op T) → TimedDebouncer T K × List K.View
  | [] => (d, [])
  | Op.upd t v :: rest => run_ops (update d t v).1 rest
  | Op.peek :: rest =>
      let r := run_ops d rest
      (r.1, read_stable d :: r.2)

/-- The stable value an outcome establishes: the promoted value for a
`Transitioned` outcome, the previous stable value otherwise. -/
def promoteStep {T View : Type} (v : T) : State T View → T
  | State.Transitioned nv _ => nv
  | _ => v

/-- Follows the spec's words (read_stable "must return exactly the value
set by the most recent promotion"): the stable value selected by the most
recent `Transitioned` outcome in a list of outcomes, or the seed value
when no promotion occurred. -/
def lastPromoted {T View : Type} (v : T) : List (State T View) → T
  | [] => v
  | s :: rest => lastPromoted (promoteStep v s) rest

/-- The `DebouncedInput` struct of `src/wrapper.rs` (Known variant
debouncer plus the wrapped input source). The `Input<T>` trait's single
method `read(&mut self) -> T` is modelled as a function
`I → I × T` threaded alongside. -/
structure DebouncedInput (T I : Type) (dflt : T) where
  debouncer : TimedDebouncer T (knownKind T dflt)
  input : I

/-- `DebouncedInput::new`: performs one read of the source and seeds the
underlying debouncer with the value it returns and the given duration. -/
def DebouncedInput.new {T I : Type} (dflt : T) (readI : I → I × T)
    (input : I) (debounce_time now : Nat) : DebouncedInput T I dflt :=
  let r := readI input
  { debouncer := newKnown T dflt r.2 debounce_time now, input := r.1 }

/-- `DebouncedInput::read`: performs one fresh read of the source and
feeds the value to the underlying debouncer's `update`. -/
def DebouncedInput.read {T I : Type} [DecidableEq T] {dflt : T}
    (readI : I → I × T) (di : DebouncedInput T I dflt) (now : Nat) :
    DebouncedInput T I dflt × State T T :=
  let r := readI di.input
  let u := update di.debouncer now r.2
  ({ debouncer := u.1, input := r.1 }, u.2)

/-! Helper lemmas characterising the branches of `update`. -/

variable [DecidableEq T]

theorem update_short_circuit (d : TimedDebouncer T K) (now : Nat) (v nv : T)
    (hget : K.try_get d.last_stable = some v) (heq : v = nv) :
    update d now nv = ({ d with last_value := K.fromT nv }, State.Stable v) := by
  subst heq
  simp [update, hget]

theorem update_of_stable_ne (d : TimedDebouncer T K) (now : Nat) (v nv : T)
    (hget : K.try_get d.last_stable = some v) (hne : v ≠ nv) :
    update d now nv = updateChanged d now nv := by
  simp [update, hget, hne]

theorem update_of_stable_none (d : TimedDebouncer T K) (now : Nat) (nv : T)
    (hget : K.try_get d.last_stable = none) :
    update d now nv = updateChanged d now nv := by
  simp [update, hget]

theorem next_change_time_of_ne (d : TimedDebouncer T K) (now : Nat) (nv lv : T)
    (h : K.try_get d.last_value = some lv) (hne : lv ≠ nv) :
    next_change_time d now nv = now := by
  simp [next_change_time, h, hne]

theorem next_change_time_of_eq (d : TimedDebouncer T K) (now : Nat) (nv lv : T)
    (h : K.try_get d.last_value = some lv) (heq : lv = nv) :
    next_change_time d now nv = d.last_change_time := by
  subst heq
  simp [next_change_time, h]

theorem next_change_time_of_none (d : TimedDebouncer T K) (now : Nat) (nv : T)
    (h : K.try_get d.last_value = none) :
    next_change_time d now nv = now := by
  simp [next_change_time, h]

theorem updateChanged_promote (d : TimedDebouncer T K) (now : Nat) (nv : T)
    (h : next_change_time d now nv + d.debounce_time ≤ now) :
    updateChanged d now nv =
      (⟨K.fromT nv, K.fromT nv, next_change_time d now nv, d.debounce_time⟩,
        State.Transitioned nv (K.deref d.last_stable)) := by
  simp [updateChanged, h]

theorem updateChanged_pending (d : TimedDebouncer T K) (now : Nat) (nv : T)
    (h : ¬ next_change_time d now nv + d.debounce_time ≤ now) :
    updateChanged d now nv =
      (⟨d.last_stable, K.fromT nv, next_change_time d now nv, d.debounce_time⟩,
        State.Unstable (K.deref d.last_stable) (K.view_fromT nv)) := by
  simp [updateChanged, h]

theorem run_updates_cons (d : TimedDebouncer T K) (t : Nat) (v : T)
    (rest : List (Nat × T)) :
    run_updates d ((t, v) :: rest) =
      ((run_updates (update d t v).1 rest).1,
        (update d t v).2 :: (run_updates (update d t v).1 rest).2) := rfl

/-! Step lemmas for the Known variant. -/

theorem known_first_change (dflt V0 V1 : T) (hne : V1 ≠ V0) (tc t0 D : Nat)
    (hD : 0 < D) :
    update (K := knownKind T dflt) ⟨V0, V0, tc, D⟩ t0 V1 =
      (⟨V0, V1, t0, D⟩, State.Unstable V0 V1) := by
  have hnct : next_change_time (K := knownKind T dflt) ⟨V0, V0, tc, D⟩ t0 V1 = t0 :=
    next_change_time_of_ne _ _ _ V0 rfl (Ne.symm hne)
  rw [update_of_stable_ne _ _ V0 V1 rfl (Ne.symm hne),
    updateChanged_pending _ _ _ (by rw [hnct]; show ¬ t0 + D ≤ t0; omega), hnct]

theorem known_pending_fix (dflt V0 V1 : T) (hne : V1 ≠ V0) (t0 D t : Nat)
    (ht : t < t0 + D) :
    update (K := knownKind T dflt) ⟨V0, V1, t0, D⟩ t V1 =
      (⟨V0, V1, t0, D⟩, State.Unstable V0 V1) := by
  have hnct : next_change_time (K := knownKind T dflt) ⟨V0, V1, t0, D⟩ t V1 = t0 :=
    next_change_time_of_eq _ _ _ V1 rfl rfl
  rw [update_of_stable_ne _ _ V0 V1 rfl (Ne.symm hne),
    updateChanged_pending _ _ _ (by rw [hnct]; show ¬ t0 + D ≤ t; omega), hnct]

theorem known_promote (dflt V0 V1 : T) (hne : V1 ≠ V0) (t0 D tp : Nat)
    (hp : t0 + D ≤ tp) :
    update (K := knownKind T dflt) ⟨V0, V1, t0, D⟩ tp V1 =
      (⟨V1, V1, t0, D⟩, State.Transitioned V1 V0) := by
  have hnct : next_change_time (K := knownKind T dflt) ⟨V0, V1, t0, D⟩ tp V1 = t0 :=
    next_change_time_of_eq _ _ _ V1 rfl rfl
  rw [update_of_stable_ne _ _ V0 V1 rfl (Ne.symm hne),
    updateChanged_promote _ _ _ (by rw [hnct]; show t0 + D ≤ tp; exact hp), hnct]

theorem known_stable_fix (dflt V1 : T) (t0 D t : Nat) :
    update (K := knownKind T dflt) ⟨V1, V1, t0, D⟩ t V1 =
      (⟨V1, V1, t0, D⟩, State.Stable V1) := by
  rw [update_short_circuit _ _ V1 V1 rfl rfl]

theorem known_pending_runs (dflt V0 V1 : T) (hne : V1 ≠ V0) (t0 D : Nat)
    (ts : List Nat) (hts : ∀ t ∈ ts, t < t0 + D) :
    run_updates (K := knownKind T dflt) ⟨V0, V1, t0, D⟩
        (ts.map fun t => (t, V1)) =
      (⟨V0, V1, t0, D⟩, ts.map fun _ => State.Unstable V0 V1) := by
  induction ts with
  | nil => rfl
  | cons t rest ih =>
      rw [List.map_cons, run_updates_cons,
        known_pending_fix dflt V0 V1 hne t0 D t (hts t (List.mem_cons_self t rest)),
        List.map_cons]
      rw [ih fun s hs => hts s (List.mem_cons_of_mem t hs)]

theorem known_stable_runs (dflt V1 : T) (t0 D : Nat) (ts : List Nat) :
    run_updates (K := knownKind T dflt) ⟨V1, V1, t0, D⟩
        (ts.map fun t => (t, V1)) =
      (⟨V1, V1, t0, D⟩, ts.map fun _ => State.Stable V1) := by
  induction ts with
  | nil => rfl
  | cons t rest ih =>
      rw [List.map_cons, run_updates_cons, known_stable_fix dflt V1 t0 D t,
        List.map_cons]
      rw [ih]

theorem known_update_last_stable (dflt : T)
    (d : TimedDebouncer T (knownKind T dflt)) (t : Nat) (v : T) :
    (update d t v).1.last_stable = promoteStep d.last_stable (update d t v).2 := by
  by_cases h : d.last_stable = v
  · rw [update_short_circuit d t d.last_stable v rfl h]
    rfl
  · rw [update_of_stable_ne d t d.last_stable v rfl h]
    by_cases hc : next_change_time d t v + d.debounce_time ≤ t
    · rw [updateChanged_promote d t v hc]
      rfl
    · rw [updateChanged_pending d t v hc]
      rfl

theorem known_run_lastPromoted (dflt : T)
    (d : TimedDebouncer T (knownKind T dflt)) (calls : List (Nat × T)) :
    (run_updates d calls).1.last_stable =
      lastPromoted d.last_stable (run_updates d calls).2 := by
  induction calls generalizing d with
  | nil => rfl
  | cons c rest ih =>
      obtain ⟨t, v⟩ := c
      rw [run_updates_cons]
      show (run_updates (update d t v).1 rest).1.last_stable =
        lastPromoted d.last_stable
          ((update d t v).2 :: (run_updates (update d t v).1 rest).2)
      rw [lastPromoted, ← known_update_last_stable dflt d t v]
      exact ih (update d t v).1

theorem run_ops_peek_replicate (d : TimedDebouncer T K) (n : Nat)
    (ops : List (Op T)) :
    run_ops d (List.replicate n Op.peek ++ ops) =
      ((run_ops d ops).1,
        List.replicate n (read_stable d) ++ (run_ops d ops).2) := by
  induction n with
  | zero => simp
  | succ m ih => simp [List.replicate_succ, run_ops, ih]

theorem read_of_value (d : TimedDebouncer T K) (now : Nat) (lv : T)
    (h : K.try_get d.last_value = some lv) :
    read d now = update d now lv := by
  simp [read, h]

theorem read_of_none (d : TimedDebouncer T K) (now : Nat)
    (h : K.try_get d.last_value = none) :
    read d now = (d, State.Unstable K.view_default K.view_default) := by
  simp [read, h]

/-!
## The claims
-/

/-- C2: whenever `last_stable` holds a concrete value equal to the
argument, `update` records `last_value = new_value`, returns
`Stable{last_stable}`, and modifies neither `last_change_time` nor
`last_stable`; in particular, after construction with `V0` and an
`update V1` (`V1 ≠ V0`) at `t0`, a later `update V0` (at any poll time,
so in particular before `D` has elapsed) returns `Stable V0` immediately,
leaving `last_change_time` at `t0` — no new wait period. -/
theorem C2_return_to_stable_short_circuit (T : Type) [DecidableEq T]
    (K : ValueKind T) (d : TimedDebouncer T K) (now : Nat) (v nv : T)
    (hget : K.try_get d.last_stable = some v) (heq : v = nv)
    (dflt V0 V1 : T) (hne : V1 ≠ V0) (D tc t0 t1 : Nat) (hD : 0 < D) :
    update d now nv = ({ d with last_value := K.fromT nv }, State.Stable v) ∧
    (update d now nv).1.last_change_time = d.last_change_time ∧
    (update d now nv).1.last_stable = d.last_stable ∧
    update (update (newKnown T dflt V0 D tc) t0 V1).1 t1 V0 =
      (⟨V0, V0, t0, D⟩, State.Stable V0) := by
  have h1 := update_short_circuit d now v nv hget heq
  have hA : (update (newKnown T dflt V0 D tc) t0 V1).1 =
      (⟨V0, V1, t0, D⟩ : TimedDebouncer T (knownKind T dflt)) := by
    rw [show newKnown T dflt V0 D tc =
        (⟨V0, V0, tc, D⟩ : TimedDebouncer T (knownKind T dflt)) from rfl,
      known_first_change dflt V0 V1 hne tc t0 D hD]
  refine ⟨h1, by rw [h1], by rw [h1], ?_⟩
  rw [hA, update_short_circuit _ t1 V0 V0 rfl rfl]

/-- Witness for C2 at `T = Bool`, `V0 = false`, `V1 = true`, `D = 10`,
`t0 = 3`, `t1 = 7`. -/
theorem C2_witness :
    (0 : Nat) < 10 ∧
    update (update (newKnown Bool false false 10 0) 3 true).1 7 false =
      (⟨false, false, 3, 10⟩, State.Stable false) :=
  ⟨by decide,
    (C2_return_to_stable_short_circuit Bool (knownKind Bool false)
      (newKnown Bool false false 10 0) 0 false false rfl rfl
      false false true (by decide) 10 0 3 7 (by decide)).2.2.2⟩

/-- C5: with `debounce_time = 0`, an update call that delivers a raw
value differing from the current stable value and from the recorded
`last_value` (a raw value change) returns `Transitioned` at once,
regardless of elapsed time: `last_change_time` is set to `now()` in that
call, and `now() ≥ now() + 0` holds. -/
theorem C5_zero_duration_promotes (T : Type) [DecidableEq T]
    (K : ValueKind T) (d : TimedDebouncer T K) (now : Nat) (nv : T)
    (h0 : d.debounce_time = 0)
    (hs : ∀ v, K.try_get d.last_stable = some v → v ≠ nv)
    (hc : ∀ v, K.try_get d.last_value = some v → v ≠ nv) :
    (update d now nv).2 = State.Transitioned nv (K.deref d.last_stable) := by
  have hupd : update d now nv = updateChanged d now nv := by
    cases hg : K.try_get d.last_stable with
    | some v => exact update_of_stable_ne d now v nv hg (hs v hg)
    | none => exact update_of_stable_none d now nv hg
  have hnct : next_change_time d now nv = now := by
    cases hg : K.try_get d.last_value with
    | some lv => exact next_change_time_of_ne d now nv lv hg (hc lv hg)
    | none => exact next_change_time_of_none d now nv hg
  rw [hupd, updateChanged_promote d now nv (by rw [hnct, h0]; omega)]

/-- Witness for C5: known debouncer at `false` with `D = 0`; the update
delivering `true` transitions immediately. -/
theorem C5_witness :
    (newKnown Bool false false 0 3).debounce_time = 0 ∧
    (update (newKnown Bool false false 0 3) 3 true).2 =
      State.Transitioned true false :=
  ⟨rfl,
    C5_zero_duration_promotes Bool (knownKind Bool false)
      (newKnown Bool false false 0 3) 3 true rfl (by decide) (by decide)⟩

/-- C7: whenever a raw value has been recorded, `read()` is the same
operation as `update` with that recorded raw value: same outcome, same
post-state. -/
theorem C7_read_equiv_update (T : Type) [DecidableEq T] (K : ValueKind T)
    (d : TimedDebouncer T K) (now : Nat) (lv : T)
    (h : K.try_get d.last_value = some lv) :
    read d now = update d now lv :=
  read_of_value d now lv h

/-- Witness for C7: a known debouncer whose recorded raw value is `true`;
`read` at time 5 equals `update` with `true` at time 5. -/
theorem C7_witness :
    (knownKind Bool false).try_get
        (⟨false, true, 2, 10⟩ :
          TimedDebouncer Bool (knownKind Bool false)).last_value = some true ∧
    read (⟨false, true, 2, 10⟩ : TimedDebouncer Bool (knownKind Bool false)) 5 =
      update (⟨false, true, 2, 10⟩ : TimedDebouncer Bool (knownKind Bool false)) 5
        true :=
  ⟨rfl,
    C7_read_equiv_update Bool (knownKind Bool false) ⟨false, true, 2, 10⟩ 5 true
      rfl⟩

/-- C9: the input-wrapping adapter is pure composition: `new` performs
exactly one source read and builds the Known-variant debouncer with the
value it returned as both initial stable and raw value and the given
duration; `read` performs exactly one fresh source read and returns
precisely the outcome of feeding that value to the underlying `update`,
with the underlying debouncer left in exactly the `update` post-state. -/
theorem C9_adapter_composition (T I : Type) [DecidableEq T] (dflt : T)
    (readI : I → I × T) (input : I) (D tc now : Nat)
    (di : DebouncedInput T I dflt) :
    (DebouncedInput.new dflt readI input D tc).debouncer =
      newKnown T dflt (readI input).2 D tc ∧
    (DebouncedInput.new dflt readI input D tc).debouncer.last_stable =
      (readI input).2 ∧
    (DebouncedInput.new dflt readI input D tc).debouncer.last_value =
      (readI input).2 ∧
    (DebouncedInput.new dflt readI input D tc).debouncer.debounce_time = D ∧
    (DebouncedInput.new dflt readI input D tc).input = (readI input).1 ∧
    (DebouncedInput.read readI di now).2 =
      (update di.debouncer now (readI di.input).2).2 ∧
    (DebouncedInput.read readI di now).1.debouncer =
      (update di.debouncer now (readI di.input).2).1 ∧
    (DebouncedInput.read readI di now).1.input = (readI di.input).1 :=
  ⟨rfl, rfl, rfl, rfl, rfl, rfl, rfl, rfl⟩

/-- C1: known variant, initial `V0`, duration `D > 0`: after `update V1`
at `t0` with `V1 ≠ V0` (outcome `Unstable{V0, V1}`), every `update V1`
at a time strictly before `t0 + D` returns `Unstable{stable: V0,
most_recent: V1}`; the first `update V1` at a time `≥ t0 + D` (the
comparison is `≥`, so exactly `D` elapsed suffices, at any polling
cadence) returns `Transitioned{stable: V1, previous_stable: V0}` and
sets `last_stable` to `V1` in the same call; every subsequent
`update V1` returns `Stable V1`. -/
theorem C1_monotonic_promotion_threshold (T : Type) [DecidableEq T]
    (dflt V0 V1 : T) (hne : V1 ≠ V0) (D tc t0 : Nat) (hD : 0 < D)
    (ts : List Nat) (hts : ∀ t ∈ ts, t < t0 + D)
    (tp : Nat) (hp : t0 + D ≤ tp) (ts2 : List Nat) :
    (update (newKnown T dflt V0 D tc) t0 V1).2 = State.Unstable V0 V1 ∧
    (run_updates (update (newKnown T dflt V0 D tc) t0 V1).1
        (ts.map fun t => (t, V1))).2 = ts.map (fun _ => State.Unstable V0 V1) ∧
    (update (run_updates (update (newKnown T dflt V0 D tc) t0 V1).1
        (ts.map fun t => (t, V1))).1 tp V1).2 = State.Transitioned V1 V0 ∧
    (update (run_updates (update (newKnown T dflt V0 D tc) t0 V1).1
        (ts.map fun t => (t, V1))).1 tp V1).1.last_stable = V1 ∧
    (run_updates (update (run_updates (update (newKnown T dflt V0 D tc) t0 V1).1
        (ts.map fun t => (t, V1))).1 tp V1).1 (ts2.map fun t => (t, V1))).2 =
      ts2.map fun _ => State.Stable V1 := by
  have e0 : newKnown T dflt V0 D tc =
      (⟨V0, V0, tc, D⟩ : TimedDebouncer T (knownKind T dflt)) := rfl
  have h0 := known_first_change dflt V0 V1 hne tc t0 D hD
  have h0d : (update (newKnown T dflt V0 D tc) t0 V1).1 =
      (⟨V0, V1, t0, D⟩ : TimedDebouncer T (knownKind T dflt)) := by rw [e0, h0]
  have h0s : (update (newKnown T dflt V0 D tc) t0 V1).2 =
      State.Unstable V0 V1 := by rw [e0, h0]
  have h1 := known_pending_runs dflt V0 V1 hne t0 D ts hts
  have h1d : (run_updates (update (newKnown T dflt V0 D tc) t0 V1).1
      (ts.map fun t => (t, V1))).1 =
      (⟨V0, V1, t0, D⟩ : TimedDebouncer T (knownKind T dflt)) := by rw [h0d, h1]
  have h1s : (run_updates (update (newKnown T dflt V0 D tc) t0 V1).1
      (ts.map fun t => (t, V1))).2 = ts.map (fun _ => State.Unstable V0 V1) := by
    rw [h0d, h1]
  have h2 := known_promote dflt V0 V1 hne t0 D tp hp
  have h2d : (update (run_updates (update (newKnown T dflt V0 D tc) t0 V1).1
      (ts.map fun t => (t, V1))).1 tp V1).1 =
      (⟨V1, V1, t0, D⟩ : TimedDebouncer T (knownKind T dflt)) := by rw [h1d, h2]
  have h2s : (update (run_updates (update (newKnown T dflt V0 D tc) t0 V1).1
      (ts.map fun t => (t, V1))).1 tp V1).2 = State.Transitioned V1 V0 := by
    rw [h1d, h2]
  have h3 := known_stable_runs dflt V1 t0 D ts2
  exact ⟨h0s, h1s, h2s, by rw [h2d], by rw [h2d, h3]⟩

/-- Witness for C1: `T = Bool`, `V0 = false`, `V1 = true`, `D = 10`,
`t0 = 3`, holds through polls at 5, 9 and 12, transitions at 13. -/
theorem C1_witness :
    (∀ t ∈ [5, 9, 12], t < 3 + 10) ∧
    (update (run_updates (update (newKnown Bool false false 10 0) 3 true).1
        ([5, 9, 12].map fun t => (t, true))).1 13 true).2 =
      State.Transitioned true false :=
  ⟨by decide,
    (C1_monotonic_promotion_threshold Bool false false true (by decide) 10 0 3
      (by decide) [5, 9, 12] (by decide) 13 (by decide) [14, 20]).2.2.1⟩

/-- C3 is refuted as stated: its consequence "`last_change_time` is
always the timestamp of the most recent raw value change" fails when the
raw value changes in a return-to-stable short-circuit call.  Concretely
(known variant, `V0 = 0`, `D = 10`, built at time 0): `update 1` at time
5 records raw value `1` and `last_change_time = 5`; `update 0` at time 7
changes the recorded raw value back to `0` — a raw value change observed
at time 7 — yet leaves `last_change_time = 5 ≠ 7`. -/
theorem C3_counterexample :
    (update (newKnown Nat 0 0 10 0) 5 1).1.last_value = 1 ∧
    (update (update (newKnown Nat 0 0 10 0) 5 1).1 7 0).1.last_value = 0 ∧
    (update (update (newKnown Nat 0 0 10 0) 5 1).1 7 0).1.last_change_time
      = 5 := by
  decide

/-- C3 (amended): in every update call that does not take the
return-to-stable short-circuit, `last_change_time` is set to `now()`
exactly when the argument differs from the recorded `last_value` or no
`last_value` was ever recorded, and left untouched when it equals the
recorded `last_value`; hence `last_change_time` is the timestamp of the
most recent raw value change observed outside that short-circuit (a
return-to-stable call records `last_value` without touching the clock);
repeating the currently-unstable raw value does not restart the timer,
and a second change (flicker) restarts it at the time of that change —
concretely with `D = 10`: change to 1 at t=0, flicker to 2 at t=5,
still `Unstable` at t=14, `Transitioned` at t=15. -/
theorem C3_change_clock_amended (T : Type) [DecidableEq T] (K : ValueKind T)
    (d : TimedDebouncer T K) (now : Nat) (nv : T)
    (hsc : ∀ v, K.try_get d.last_stable = some v → v ≠ nv) :
    (K.try_get d.last_value = none →
      (update d now nv).1.last_change_time = now) ∧
    (∀ lv, K.try_get d.last_value = some lv → lv ≠ nv →
      (update d now nv).1.last_change_time = now) ∧
    (∀ lv, K.try_get d.last_value = some lv → lv = nv →
      (update d now nv).1.last_change_time = d.last_change_time) ∧
    ((update (newKnown Nat 0 0 10 0) 0 1).2 = State.Unstable 0 1 ∧
      (update (update (newKnown Nat 0 0 10 0) 0 1).1 5 2).1.last_change_time
        = 5 ∧
      (update (update (update (newKnown Nat 0 0 10 0) 0 1).1 5 2).1 14 2).2
        = State.Unstable 0 2 ∧
      (update (update (update (update (newKnown Nat 0 0 10 0) 0 1).1 5 2).1
        14 2).1 15 2).2 = State.Transitioned 2 0) := by
  have hupd : update d now nv = updateChanged d now nv := by
    cases hg : K.try_get d.last_stable with
    | some v => exact update_of_stable_ne d now v nv hg (hsc v hg)
    | none => exact update_of_stable_none d now nv hg
  have hlct : (updateChanged d now nv).1.last_change_time =
      next_change_time d now nv := by
    by_cases hcond : next_change_time d now nv + d.debounce_time ≤ now
    · rw [updateChanged_promote d now nv hcond]
    · rw [updateChanged_pending d now nv hcond]
  refine ⟨?_, ?_, ?_, by decide⟩
  · intro h
    rw [hupd, hlct, next_change_time_of_none d now nv h]
  · intro lv h hlvne
    rw [hupd, hlct, next_change_time_of_ne d now nv lv h hlvne]
  · intro lv h hlveq
    rw [hupd, hlct, next_change_time_of_eq d now nv lv h hlveq]

/-- Witness for C3 (amended), at the flicker state `⟨0, 1, 0, 10⟩`:
updating with the changed value 2 at time 5 restarts the clock at 5. -/
theorem C3_witness :
    (update (⟨0, 1, 0, 10⟩ : TimedDebouncer Nat (knownKind Nat 0)) 5
        2).1.last_change_time = 5 :=
  (C3_change_clock_amended Nat (knownKind Nat 0) ⟨0, 1, 0, 10⟩ 5 2
    (by intro u hu; simp only [Option.some.injEq] at hu; omega)).2.1 1 rfl
    (by decide)

/-- C4: unknown-capable variant with `D > 0`: `read()` before any update
returns `Unstable` with both fields absent and does not mutate any
state; the first `update v` returns `Unstable{stable: none, most_recent:
some v}` (not `Transitioned`); once `D` has elapsed since that first
observation with no further raw change, the next `update v` — or
`read()` — returns `Transitioned{stable: v, previous_stable: none}`.
Absence is signalled inside the outcome (`Option`), not as a failure. -/
theorem C4_unknown_start (T : Type) [DecidableEq T] (D tc : Nat) (hD : 0 < D)
    (v : T) (t0 t1 tr : Nat) (h1 : t0 + D ≤ t1) :
    read (new_unknown T D tc) tr =
      (new_unknown T D tc, State.Unstable none none) ∧
    update (new_unknown T D tc) t0 v =
      (⟨none, some v, t0, D⟩, State.Unstable none (some v)) ∧
    (update (update (new_unknown T D tc) t0 v).1 t1 v).2 =
      State.Transitioned v none ∧
    (read (update (new_unknown T D tc) t0 v).1 t1).2 =
      State.Transitioned v none := by
  have hfirst : update (new_unknown T D tc) t0 v =
      ((⟨none, some v, t0, D⟩ : TimedDebouncer T (unknownKind T)),
        State.Unstable none (some v)) := by
    have hnct : next_change_time (new_unknown T D tc) t0 v = t0 :=
      next_change_time_of_none _ _ _ rfl
    rw [update_of_stable_none _ _ _ rfl,
      updateChanged_pending _ _ _ (by rw [hnct]; show ¬ t0 + D ≤ t0; omega),
      hnct]
    rfl
  have hprom : update (⟨none, some v, t0, D⟩ :
      TimedDebouncer T (unknownKind T)) t1 v =
      (⟨some v, some v, t0, D⟩, State.Transitioned v none) := by
    have hnct : next_change_time (K := unknownKind T)
        ⟨none, some v, t0, D⟩ t1 v = t0 :=
      next_change_time_of_eq _ _ _ v rfl rfl
    rw [update_of_stable_none _ _ _ rfl,
      updateChanged_promote _ _ _ (by rw [hnct]; show t0 + D ≤ t1; exact h1),
      hnct]
  refine ⟨read_of_none _ _ rfl, hfirst, ?_, ?_⟩
  · rw [hfirst]
    show (update (⟨none, some v, t0, D⟩ :
      TimedDebouncer T (unknownKind T)) t1 v).2 = State.Transitioned v none
    rw [hprom]
  · rw [hfirst]
    show (read (⟨none, some v, t0, D⟩ :
      TimedDebouncer T (unknownKind T)) t1).2 = State.Transitioned v none
    rw [read_of_value _ _ v rfl, hprom]

/-- Witness for C4: unknown-start Bool debouncer, `D = 10`, first update
at 3, transition at 13. -/
theorem C4_witness :
    (0 : Nat) < 10 ∧ 3 + 10 ≤ 13 ∧
    (update (update (new_unknown Bool 10 0) 3 true).1 13 true).2 =
      State.Transitioned true none :=
  ⟨by decide, by decide,
    (C4_unknown_start Bool 10 0 (by decide) true 3 13 7 (by decide)).2.2.1⟩

/-- C6 is refuted as stated: with `D = 0` (known variant, stable
`false`, built at time 0), the FIRST update delivering the differing
value `true` already returns `Transitioned` (it does promote), and the
second consecutive `update true` returns `Stable true`, not
`Transitioned`. -/
theorem C6_counterexample :
    (update (newKnown Bool false false 0 0) 0 true).2 =
      State.Transitioned true false ∧
    (update (update (newKnown Bool false false 0 0) 0 true).1 1 true).2 =
      State.Stable true := by
  decide

/-- C6 (amended): with `D = 0` (known variant), a new raw value is
promoted immediately on first sight: the first update call delivering a
value different from the current stable value itself returns
`Transitioned` (and sets `last_stable` in the same call), and the second
consecutive update with that same value returns `Stable`. -/
theorem C6_zero_duration_amended (T : Type) [DecidableEq T]
    (dflt V0 V1 : T) (hne : V1 ≠ V0) (tc t0 t1 : Nat) :
    update (newKnown T dflt V0 0 tc) t0 V1 =
      ((⟨V1, V1, t0, 0⟩ : TimedDebouncer T (knownKind T dflt)),
        State.Transitioned V1 V0) ∧
    (update (update (newKnown T dflt V0 0 tc) t0 V1).1 t1 V1).2 =
      State.Stable V1 := by
  have hfirst : update (newKnown T dflt V0 0 tc) t0 V1 =
      ((⟨V1, V1, t0, 0⟩ : TimedDebouncer T (knownKind T dflt)),
        State.Transitioned V1 V0) := by
    have hnct : next_change_time (K := knownKind T dflt)
        ⟨V0, V0, tc, 0⟩ t0 V1 = t0 :=
      next_change_time_of_ne _ _ _ V0 rfl (Ne.symm hne)
    rw [show newKnown T dflt V0 0 tc =
        (⟨V0, V0, tc, 0⟩ : TimedDebouncer T (knownKind T dflt)) from rfl,
      update_of_stable_ne _ _ V0 V1 rfl (Ne.symm hne),
      updateChanged_promote _ _ _ (by rw [hnct]; show t0 + 0 ≤ t0; omega),
      hnct]
  refine ⟨hfirst, ?_⟩
  rw [hfirst]
  show (update (⟨V1, V1, t0, 0⟩ :
    TimedDebouncer T (knownKind T dflt)) t1 V1).2 = State.Stable V1
  rw [known_stable_fix dflt V1 t0 0 t1]

/-- Witness for C6 (amended): Bool, `D = 0`, first differing update at
time 6 transitions; the second at time 7 is `Stable`. -/
theorem C6_witness :
    (true ≠ false) ∧
    (update (update (newKnown Bool false false 0 5) 6 true).1 7 true).2 =
      State.Stable true :=
  ⟨by decide,
    (C6_zero_duration_amended Bool false false true (by decide) 5 6 7).2⟩

/-- C8: `read_stable` is a pure function of the state returning exactly
the recorded `last_stable` (no time comparison, no mutation — it takes
`&self` in Rust, reflected here by its type); any number of
`read_stable` peeks between two updates leaves the state — and hence the
outcome of the next `update` — unchanged, and each peek returns the
value set by the most recent promotion (the construction value when no
promotion has occurred). -/
theorem C8_read_stable_frame (T : Type) [DecidableEq T] (K : ValueKind T)
    (d : TimedDebouncer T K) (n t : Nat) (v : T) (ops : List (Op T))
    (dflt V0 : T) (D tc : Nat) (calls : List (Nat × T)) :
    read_stable d = K.deref d.last_stable ∧
    (run_ops d (List.replicate n Op.peek)).1 = d ∧
    (run_ops d (List.replicate n Op.peek)).2 =
      List.replicate n (read_stable d) ∧
    run_ops d (List.replicate n Op.peek ++ ops) =
      ((run_ops d ops).1, List.replicate n (read_stable d) ++ (run_ops d ops).2) ∧
    update (run_ops d (List.replicate n Op.peek)).1 t v = update d t v ∧
    read_stable (run_updates (newKnown T dflt V0 D tc) calls).1 =
      lastPromoted V0 (run_updates (newKnown T dflt V0 D tc) calls).2 := by
  have hrep0 : run_ops d (List.replicate n Op.peek) =
      (d, List.replicate n (read_stable d)) := by
    have h := run_ops_peek_replicate d n ([] : List (Op T))
    simpa [run_ops] using h
  exact ⟨rfl, by rw [hrep0], by rw [hrep0], run_ops_peek_replicate d n ops,
    by rw [hrep0],
    known_run_lastPromoted dflt (newKnown T dflt V0 D tc) calls⟩

/-- C10 (implicit): whenever `update` returns `Transitioned{stable,
previous_stable}` with `previous_stable` holding a concrete value, that
value differs from `stable`; the equality short-circuit returns `Stable`
before the promotion branch can be reached. Stated for both sealed
variants. -/
theorem C10_no_promotion_to_stable (T : Type) [DecidableEq T] (now : Nat)
    (nv : T) :
    (∀ (dflt : T) (d : TimedDebouncer T (knownKind T dflt)) (v p : T),
        (update d now nv).2 = State.Transitioned v p → p ≠ v) ∧
    (∀ (d : TimedDebouncer T (unknownKind T)) (v : T) (p : Option T) (w : T),
        (update d now nv).2 = State.Transitioned v p → p = some w → w ≠ v) := by
  constructor
  · intro dflt d v p hT
    by_cases h : d.last_stable = nv
    · rw [update_short_circuit d now d.last_stable nv rfl h] at hT
      have hT2 : (State.Stable d.last_stable : State T T) =
          State.Transitioned v p := hT
      exact State.noConfusion hT2
    · rw [update_of_stable_ne d now d.last_stable nv rfl h] at hT
      by_cases hcond : next_change_time d now nv + d.debounce_time ≤ now
      · rw [updateChanged_promote d now nv hcond] at hT
        have hT2 : (State.Transitioned nv d.last_stable : State T T) =
            State.Transitioned v p := hT
        injection hT2 with hv hp
        subst hv
        rw [← hp]
        exact h
      · rw [updateChanged_pending d now nv hcond] at hT
        have hT2 : (State.Unstable d.last_stable nv : State T T) =
            State.Transitioned v p := hT
        exact State.noConfusion hT2
  · intro d v p w hT hp
    cases hls : d.last_stable with
    | none =>
        have hg : (unknownKind T).try_get d.last_stable = none := hls
        rw [update_of_stable_none d now nv hg] at hT
        by_cases hcond : next_change_time d now nv + d.debounce_time ≤ now
        · rw [updateChanged_promote d now nv hcond] at hT
          have hT2 : (State.Transitioned nv d.last_stable :
              State T (Option T)) = State.Transitioned v p := hT
          injection hT2 with hv hp2
          rw [← hp2, hls] at hp
          exact Option.noConfusion hp
        · rw [updateChanged_pending d now nv hcond] at hT
          have hT2 : (State.Unstable d.last_stable (some nv) :
              State T (Option T)) = State.Transitioned v p := hT
          exact State.noConfusion hT2
    | some s =>
        have hg : (unknownKind T).try_get d.last_stable = some s := hls
        by_cases hs : s = nv
        · rw [update_short_circuit d now s nv hg hs] at hT
          have hT2 : (State.Stable s : State T (Option T)) =
              State.Transitioned v p := hT
          exact State.noConfusion hT2
        · rw [update_of_stable_ne d now s nv hg hs] at hT
          by_cases hcond : next_change_time d now nv + d.debounce_time ≤ now
          · rw [updateChanged_promote d now nv hcond] at hT
            have hT2 : (State.Transitioned nv d.last_stable :
                State T (Option T)) = State.Transitioned v p := hT
            injection hT2 with hv hp2
            rw [← hp2, hls] at hp
            injection hp with hw
            subst hv
            rw [← hw]
            exact hs
          · rw [updateChanged_pending d now nv hcond] at hT
            have hT2 : (State.Unstable d.last_stable (some nv) :
                State T (Option T)) = State.Transitioned v p := hT
            exact State.noConfusion hT2

/-- Witness for C10: known Bool debouncer in unstable state
`⟨false, true, 0, 0⟩`; `update true` at time 5 transitions to `true`
from previous stable `false`, and indeed `false ≠ true`. -/
theorem C10_witness :
    (update (⟨false, true, 0, 0⟩ : TimedDebouncer Bool (knownKind Bool false))
        5 true).2 = State.Transitioned true false ∧
    (false : Bool) ≠ true :=
  ⟨by decide,
    (C10_no_promotion_to_stable Bool 5 true).1 false ⟨false, true, 0, 0⟩ true
      false (by decide)⟩

end Stabilizer
